import Mathlib

/-!
Verification development for the LaneList freight-carrier directory.

The definitions below are a shallow embedding of the search route
(`src/app/api/contact/route.ts`, final typed variant: `carriersJsonSchema` /
`validateCarriers`, `stubSuggestion`, `allowAiCall`, `aiFallback`, the search
`POST` handler) and of the contact route (`rateLimit`, contact `POST`).
JavaScript objects are modelled as association lists of string keys, numbers
as exact rationals where fractional values occur, timestamps as naturals in
milliseconds, environment variables and optional fields as `Option`, and the
external AI provider as an explicit description of the outcome of each call.
-/

set_option autoImplicit false

namespace LaneList

/-- A JSON value, as produced by `JSON.parse`: objects are association lists
(first binding wins on lookup, mirroring a JS object's unique keys). -/
inductive Json where
  | null : Json
  | bool : Bool → Json
  | num : Int → Json
  | str : String → Json
  | arr : List Json → Json
  | obj : List (String × Json) → Json

/-- First binding of key `k` in an association list (JS property lookup). -/
def lookupField (fs : List (String × Json)) (k : String) : Option Json :=
  (fs.find? (fun kv => kv.1 == k)).map (fun kv => kv.2)

/-- Property read `j[k]` for objects, `undefined` (`none`) otherwise. -/
def Json.getField : Json → String → Option Json
  | .obj fs, k => lookupField fs k
  | _, _ => none

/-! ### The Ajv carrier schema (`carriersJsonSchema`) with `removeAdditional: "all"`

`validateCarriers = ajv.compile(carriersJsonSchema)` with
`new Ajv({ removeAdditional: "all", allErrors: true })`: unknown properties at
every object level are deleted, then the remaining value is validated; the
call returns a boolean and, on failure, a non-empty `errors` array. -/

/-- The five-tag transport-type enum of the schema. -/
def transportTypes : List String := ["truck", "reefer", "container", "flatbed", "tanker"]

/-- Property names of a lane object in the schema. -/
def laneKeys : List String := ["origin", "destination"]

/-- Property names of a carrier item in the schema. -/
def itemKeys : List String := ["id", "name", "types", "lanes", "description", "logoEmoji"]

/-- The `removeAdditional` pass at the lane level: keep only `origin` and `destination`. -/
def stripLane : Json → Json
  | .obj fs => .obj (fs.filter (fun kv => laneKeys.contains kv.1))
  | j => j

/-- Strip every element of the `lanes` array. -/
def stripLanes : Json → Json
  | .arr xs => .arr (xs.map stripLane)
  | j => j

/-- The `removeAdditional` pass at the item level: keep only schema keys; recurse into `lanes`. -/
def stripItem : Json → Json
  | .obj fs =>
      .obj ((fs.filter (fun kv => itemKeys.contains kv.1)).map
        (fun kv => if kv.1 == "lanes" then ("lanes", stripLanes kv.2) else kv))
  | j => j

/-- Strip every element of the `items` array. -/
def stripItems : Json → Json
  | .arr xs => .arr (xs.map stripItem)
  | j => j

/-- The `removeAdditional` pass at the top level: keep only `items`; recurse into it. -/
def stripPayload : Json → Json
  | .obj fs =>
      .obj ((fs.filter (fun kv => kv.1 == "items")).map
        (fun kv => ("items", stripItems kv.2)))
  | j => j

/-- Errors for a required string property (`{ type: "string" }`, in `required`). -/
def reqStrErrs (fs : List (String × Json)) (k : String) : List String :=
  match lookupField fs k with
  | some (.str _) => []
  | some _ => [k ++ ": must be string"]
  | none => [k ++ ": required"]

/-- Errors for an optional nullable string property
(`{ type: "string", nullable: true }`, not in `required`). -/
def optStrErrs (fs : List (String × Json)) (k : String) : List String :=
  match lookupField fs k with
  | some (.str _) => []
  | some .null => []
  | some _ => [k ++ ": must be string or null"]
  | none => []

/-- Errors for one element of `types` (string drawn from the enum). -/
def typeTagErrs : Json → List String
  | .str s => if transportTypes.contains s then [] else ["types: value not in enum"]
  | _ => ["types: element must be string"]

/-- Errors for the `types` property (array of enum strings). -/
def typesErrs : Json → List String
  | .arr xs => xs.foldr (fun x acc => typeTagErrs x ++ acc) []
  | _ => ["types: must be array"]

/-- Errors for one lane object (`required: ["origin", "destination"]`, both strings). -/
def laneErrs : Json → List String
  | .obj fs => reqStrErrs fs "origin" ++ reqStrErrs fs "destination"
  | _ => ["lanes: element must be object"]

/-- Errors for the `lanes` property (array of lane objects). -/
def lanesErrs : Json → List String
  | .arr xs => xs.foldr (fun x acc => laneErrs x ++ acc) []
  | _ => ["lanes: must be array"]

/-- Errors for one carrier item
(`required: ["id", "name", "types", "lanes"]`; `description`/`logoEmoji` optional). -/
def itemErrs : Json → List String
  | .obj fs =>
      reqStrErrs fs "id" ++ reqStrErrs fs "name" ++
      (match lookupField fs "types" with
       | some t => typesErrs t
       | none => ["types: required"]) ++
      (match lookupField fs "lanes" with
       | some l => lanesErrs l
       | none => ["lanes: required"]) ++
      optStrErrs fs "description" ++ optStrErrs fs "logoEmoji"
  | _ => ["items: element must be object"]

/-- Errors for the whole payload (`required: ["items"]`, an array of items). -/
def payloadErrs : Json → List String
  | .obj fs =>
      (match lookupField fs "items" with
       | some (.arr xs) => xs.foldr (fun x acc => itemErrs x ++ acc) []
       | some _ => ["items: must be array"]
       | none => ["items: required"])
  | _ => ["payload: must be object"]

/-- Embeds `validateCarriers(payload)`: Ajv first applies `removeAdditional: "all"`
(mutating the payload) and then validates; the result is the boolean verdict,
the normalized (stripped) payload, and the `errors` list, which is empty
exactly when the verdict is `true`. -/
def validateCarriers (j : Json) : Bool × Json × List String :=
  let n := stripPayload j
  let es := payloadErrs n
  (es.isEmpty, n, es)

/-! ### Domain types -/

/-- An origin/destination pair of country-code strings. -/
structure Lane where
  origin : String
  destination : String
  deriving DecidableEq, Repr

/-- The `CarrierOut` response-only carrier shape sent to the UI.
`description`, `logoEmoji` and `contact` keep their raw JSON values (the AI
strategies spread a validated JSON item, whose `description` may be `null`);
`confidence` is an exact rational. -/
structure CarrierOut where
  id : String
  name : String
  types : List String
  lanes : List Lane
  description : Option Json
  logoEmoji : Option Json
  verified : Bool
  rating : Option Int
  contact : Option Json
  source : String
  confidence : Option ℚ

/-- JS truthiness of an optional string: `undefined` and `""` are falsy. -/
def optTruthy : Option String → Bool
  | none => false
  | some s => !(s == "")

/-- Evaluates `a || d` for an optional string `a`: the string when truthy, else the default. -/
def jsOr (a : Option String) (d : String) : String :=
  match a with
  | some s => if s == "" then d else s
  | none => d

/-- The parsed body of a search request: `type`, `origin`, `destination` as
optional strings, `verifiedOnly` as an optional boolean. -/
structure Filter where
  type : Option String
  origin : Option String
  destination : Option String
  verifiedOnly : Option Bool
  deriving DecidableEq, Repr

/-! ### Stub Generator (`stubSuggestion`) -/

/-- Embeds `stubSuggestion(params)`: one unverified placeholder carrier; `now` is the
value of `Date.now()` used for the `ai-stub-` identifier. -/
def stubSuggestion (now : Nat) (p : Filter) : List CarrierOut :=
  [{ id := "ai-stub-" ++ toString now
     name := "Regional Carrier Suggestion"
     verified := false
     types := if optTruthy p.type then [jsOr p.type "truck"] else ["truck"]
     lanes := [{ origin := jsOr p.origin "FR", destination := jsOr p.destination "ES" }]
     description := some (.str "Unverified suggestion based on similar lanes in the region.")
     logoEmoji := some (.str "🧭")
     rating := none
     contact := none
     source := "ai"
     confidence := some (55 / 100) }]

/-! ### Rate Limiter for AI calls (`allowAiCall`) -/

/-- Window length for AI calls, in milliseconds (`aiWindowMs`). -/
def aiWindowMs : Nat := 60000

/-- Maximum allowed calls per key per window (`aiMaxCalls`). -/
def aiMaxCalls : Nat := 20

/-- One entry of the `aiBucket` map: running count and window start. -/
structure Bucket where
  count : Nat
  since : Nat
  deriving DecidableEq, Repr

/-- Embeds `allowAiCall(key)` for a single key whose current bucket entry is `b`
(`none` when the key is absent from the map): returns the verdict and the
updated entry.  `now - b.since` is JS number subtraction; as both operands
are wall-clock values with `since ≤ now` on every reachable state, truncated
natural subtraction agrees with it on the `> aiWindowMs` test. -/
def allowAiCall (now : Nat) (b : Option Bucket) : Bool × Bucket :=
  let b0 := b.getD { count := 0, since := now }
  let b1 := if now - b0.since > aiWindowMs then { count := 0, since := now } else b0
  let b2 : Bucket := { count := b1.count + 1, since := b1.since }
  (b2.count ≤ aiMaxCalls, b2)

/-- A sequence of `allowAiCall` invocations for one key at the given times:
the list of verdicts and the final bucket entry. -/
def runCalls : List Nat → Option Bucket → List Bool × Option Bucket
  | [], b => ([], b)
  | t :: ts, b =>
      let r := allowAiCall t b
      let rest := runCalls ts (some r.2)
      (r.1 :: rest.1, rest.2)

/-! ### AI Suggestion Engine (`aiFallback`)

The provider (`openai.chat.completions.create`) is modelled by the outcome of
each of the three calls the engine may make.  Strategy A reads a function
tool call; strategies B and C read message content, sanitize and `JSON.parse`
it.  An outcome records everything the code observes of one call. -/

/-- Outcome of the Strategy A provider call. -/
inductive AOutcome where
  | throws
  | noToolCall
  | emptyArgs
  | unparseable
  | payload : Json → AOutcome

/-- Outcome of a Strategy B or C provider call: the call throws, the
(sanitized) content fails `JSON.parse`, or it parses to a JSON value.
A `null` content defaults to `'{"items":[]}'`, i.e. `payload` of an object
with an empty `items` array. -/
inductive TextOutcome where
  | throws
  | unparseable
  | payload : Json → TextOutcome

/-- The environment of one `aiFallback` run: the two env vars it gates on and
the outcome of each potential provider call. -/
structure Env where
  aiEnabled : Option String
  apiKey : Option String
  a : AOutcome
  b : TextOutcome
  c : TextOutcome

/-- The constant `MIN_FILTERS_FOR_AI`. -/
def MIN_FILTERS_FOR_AI : Nat := 2

/-- The `items` of a payload, as read after validation
(`(parsed as AICarriersResponse).items`). -/
def itemsOf (j : Json) : List Json :=
  match j.getField "items" with
  | some (.arr xs) => xs
  | _ => []

/-- String value of a validated JSON field (exact on schema-valid items). -/
def jAsStr : Option Json → String
  | some (.str s) => s
  | _ => ""

/-- The `types` array of a validated item as a list of strings. -/
def jAsStrList : Option Json → List String
  | some (.arr xs) => xs.map (fun x => jAsStr (some x))
  | _ => []

/-- The `lanes` array of a validated item as a list of `Lane`s. -/
def jAsLanes : Option Json → List Lane
  | some (.arr xs) =>
      xs.map (fun x => { origin := jAsStr (x.getField "origin"),
                         destination := jAsStr (x.getField "destination") })
  | _ => []

/-- Embeds `{ ...x, verified: false, source: "ai", confidence: 0.55 }` for a
validated item `x`: the spread copies exactly the fields the validator left
on `x` (in particular `contact` is whatever survived stripping). -/
def toAiCarrierOut (x : Json) : CarrierOut :=
  { id := jAsStr (x.getField "id")
    name := jAsStr (x.getField "name")
    types := jAsStrList (x.getField "types")
    lanes := jAsLanes (x.getField "lanes")
    description := x.getField "description"
    logoEmoji := x.getField "logoEmoji"
    verified := false
    rating := none
    contact := x.getField "contact"
    source := "ai"
    confidence := some (55 / 100) }

/-- Embeds `items.slice(0, 5).map(x => ({ ...x, verified: false, source: "ai", confidence: 0.55 }))`
applied to the items of a normalized payload. -/
def mappedItems (norm : Json) : List CarrierOut :=
  ((itemsOf norm).take 5).map toAiCarrierOut

/-- Embeds `if (mapped.length > 0) return mapped; return stub(...)` — the tail of
every strategy body. -/
def nonEmptyOrStub (now : Nat) (p : Filter) (mapped : List CarrierOut) :
    List CarrierOut :=
  if mapped.length > 0 then mapped else stubSuggestion now p

/-- Body of Strategy A's `try` block, as a function of the provider-call
outcome: `some r` when the block returns `r` (a mapped list or, on a
valid-but-empty payload, the stub), `none` when it throws and control
degrades to Strategy B. -/
def strategyA (o : AOutcome) (now : Nat) (p : Filter) : Option (List CarrierOut) :=
  match o with
  | .throws => none
  | .noToolCall => none
  | .emptyArgs => none
  | .unparseable => none
  | .payload j =>
      if !(validateCarriers j).1 then none
      else some (nonEmptyOrStub now p (mappedItems (validateCarriers j).2.1))

/-- Body of Strategy B's `try` block, same convention as `strategyA`. -/
def strategyB (o : TextOutcome) (now : Nat) (p : Filter) : Option (List CarrierOut) :=
  match o with
  | .throws => none
  | .unparseable => none
  | .payload j =>
      if !(validateCarriers j).1 then none
      else some (nonEmptyOrStub now p (mappedItems (validateCarriers j).2.1))

/-- Strategy C: every failure (throw, parse error, invalid payload, empty
items) returns the stub; a non-empty valid payload returns the mapped items. -/
def strategyC (o : TextOutcome) (now : Nat) (p : Filter) : List CarrierOut :=
  match o with
  | .throws => stubSuggestion now p
  | .unparseable => stubSuggestion now p
  | .payload j =>
      if !(validateCarriers j).1 then stubSuggestion now p
      else nonEmptyOrStub now p (mappedItems (validateCarriers j).2.1)

/-- Embeds `[type, origin, destination].filter(Boolean).length`. -/
def filledCount (p : Filter) : Nat :=
  [p.type, p.origin, p.destination].countP (fun s => optTruthy s)

/-- Embeds `aiFallback(params, rateKey)`.  `bkt` is the `aiBucket` entry of
`rateKey` before the call.  Returns the suggestion list, the entry after the
call (`aiBucket.set` runs inside `allowAiCall`, before the key gate), and the
number of provider calls made. -/
def aiFallback (en : Env) (now : Nat) (bkt : Option Bucket) (p : Filter) :
    List CarrierOut × Option Bucket × Nat :=
  if !(en.aiEnabled.getD "true" == "true") then (stubSuggestion now p, bkt, 0)
  else if filledCount p < MIN_FILTERS_FOR_AI then (stubSuggestion now p, bkt, 0)
  else if !(allowAiCall now bkt).1 then (stubSuggestion now p, some (allowAiCall now bkt).2, 0)
  else if !(optTruthy en.apiKey) then (stubSuggestion now p, some (allowAiCall now bkt).2, 0)
  else
    match strategyA en.a now p with
    | some r => (r, some (allowAiCall now bkt).2, 1)
    | none =>
        match strategyB en.b now p with
        | some r => (r, some (allowAiCall now bkt).2, 2)
        | none => (strategyC en.c now p, some (allowAiCall now bkt).2, 3)

/-! ### Search Orchestrator (search route `POST`) -/

/-- A persisted carrier document as returned by `.lean()` (with `_id` already
rendered as a string, as the handler does via `c._id.toString()`). -/
structure CarrierDoc where
  id : String
  name : String
  verified : Bool
  rating : Option Int
  types : List String
  lanes : List Lane
  description : Option String
  contact : Option Json
  logoEmoji : Option String

/-- The mapping applied to each found document:
`{ id, name, types, lanes, description, logoEmoji, verified, rating, contact, source: "db" }`
(no `confidence` key). -/
def dbCarrierOut (c : CarrierDoc) : CarrierOut :=
  { id := c.id
    name := c.name
    types := c.types
    lanes := c.lanes
    description := c.description.map Json.str
    logoEmoji := c.logoEmoji.map Json.str
    verified := c.verified
    rating := c.rating
    contact := c.contact
    source := "db"
    confidence := none }

/-- One conjunct of the Mongo query object `q` built by the handler. -/
inductive Cond where
  | typesHas : String → Cond
  | laneOrigin : String → Cond
  | laneDest : String → Cond
  | verifiedTrue : Cond
  deriving DecidableEq, Repr

/-- The query built from provided filters only:
`if (type) q.types = type; if (origin) q["lanes.origin"] = origin;`
`if (destination) q["lanes.destination"] = destination; if (verifiedOnly) q.verified = true`. -/
def buildQuery (f : Filter) : List Cond :=
  (if optTruthy f.type then [Cond.typesHas (f.type.getD "")] else []) ++
  (if optTruthy f.origin then [Cond.laneOrigin (f.origin.getD "")] else []) ++
  (if optTruthy f.destination then [Cond.laneDest (f.destination.getD "")] else []) ++
  (if f.verifiedOnly.getD false then [Cond.verifiedTrue] else [])

/-- Mongo semantics of one query conjunct on a document: equality against an
array field matches when the array contains the value, and a dotted path into
an array of subdocuments matches when some element matches. -/
def evalCond (c : CarrierDoc) : Cond → Bool
  | .typesHas t => c.types.contains t
  | .laneOrigin o => c.lanes.any (fun l => l.origin == o)
  | .laneDest d => c.lanes.any (fun l => l.destination == d)
  | .verifiedTrue => c.verified

/-- A document matches `q` when it satisfies every conjunct. -/
def matchesQuery (f : Filter) (c : CarrierDoc) : Bool :=
  (buildQuery f).all (evalCond c)

/-- State of the persistence collaborator for one request: `dbConnect()`
rejects, `Carrier.find(q)` rejects, or the query runs over the given rows. -/
inductive DbState where
  | connectFails
  | queryFails
  | docs : List CarrierDoc → DbState

/-- The JSON body of a search response; `none` marks an absent key. -/
structure SearchResponse where
  carriers : List CarrierOut
  suggestions : Option (List CarrierOut)
  usedAi : Bool
  notice : Option String

/-- Notice attached when `dbConnect()` fails. -/
def dbUnavailableNotice : String :=
  "Database unavailable. Showing unverified AI suggestions."

/-- Notice attached when the query returns no carriers. -/
def noCarriersNotice : String :=
  "No verified carriers found for these filters. Showing unverified AI suggestions."

/-- Notice attached when the query throws. -/
def dbErrorNotice : String :=
  "We hit an error querying the database. Showing unverified AI suggestions."

/-- What one handler run produces: the response body, the `aiBucket` entry of
the rate key after the run, the number of provider calls, and the number of
`aiFallback` invocations. -/
structure SearchResult where
  resp : SearchResponse
  bucket : Option Bucket
  providerCalls : Nat
  aiInvocations : Nat

/-- The search handler after the body has been read: connect, build `q`,
run `Carrier.find(q).limit(50).lean()`, branch on the result. -/
def searchHandle (db : DbState) (en : Env) (now : Nat) (bkt : Option Bucket)
    (f : Filter) : SearchResult :=
  match db with
  | .connectFails =>
      let r := aiFallback en now bkt f
      { resp := { carriers := [], suggestions := some r.1, usedAi := true,
                  notice := some dbUnavailableNotice }
        bucket := r.2.1, providerCalls := r.2.2, aiInvocations := 1 }
  | .queryFails =>
      let r := aiFallback en now bkt f
      { resp := { carriers := [], suggestions := some r.1, usedAi := true,
                  notice := some dbErrorNotice }
        bucket := r.2.1, providerCalls := r.2.2, aiInvocations := 1 }
  | .docs rows =>
      let found := (rows.filter (matchesQuery f)).take 50
      if found.length > 0 then
        { resp := { carriers := found.map dbCarrierOut, suggestions := none,
                    usedAi := false, notice := none }
          bucket := bkt, providerCalls := 0, aiInvocations := 0 }
      else
        let r := aiFallback en now bkt f
        { resp := { carriers := [], suggestions := some r.1, usedAi := true,
                    notice := some noCarriersNotice }
          bucket := r.2.1, providerCalls := r.2.2, aiInvocations := 1 }

/-- The search route `POST`.  `await req.json()` (and the destructuring of its
result) runs before and outside every `try` block; a body that is not a
well-formed JSON object makes the handler reject, which `Except.error`
records.  Every later failure is handled inside the function. -/
def searchPOST (db : DbState) (en : Env) (now : Nat) (bkt : Option Bucket)
    (body : Option Filter) : Except String SearchResult :=
  match body with
  | none => .error "await req.json() rejected outside any try block"
  | some f => .ok (searchHandle db en now bkt f)

/-! ### Contact route (`rateLimit`, contact `POST`) -/

/-- One entry of the contact route's `attempts` map. -/
structure RateEntry where
  count : Nat
  ts : Nat
  deriving DecidableEq, Repr

/-- Embeds `rateLimit(key, limit = 5, windowMs = 3600000)` for a single key with
current entry `e`: verdict plus updated entry. -/
def rateLimit (now : Nat) (e : Option RateEntry) : Bool × Option RateEntry :=
  match e with
  | none => (true, some { count := 1, ts := now })
  | some it =>
      if now - it.ts > 3600000 then (true, some { count := 1, ts := now })
      else if it.count ≥ 5 then (false, some it)
      else (true, some { count := it.count + 1, ts := it.ts })

/-- Whether a character survives `sanitize`'s control-character strip
(`/[\u0000-\u001f\u007f-\u009f]/g`). -/
def keptBySanitize (c : Char) : Bool :=
  !(c.toNat ≤ 0x1f || (0x7f ≤ c.toNat && c.toNat ≤ 0x9f))

/-- Embeds `sanitize(input)`: strip control characters, then trim. -/
def sanitize (s : String) : String :=
  ((s.toList.filter keptBySanitize).asString).trim

/-- Whether a character is matched by an unflagged regex `.`
(anything but a line terminator). -/
def regexDotMatches (c : Char) : Bool :=
  !(c == '\n' || c == '\r' || c.toNat == 0x2028 || c.toNat == 0x2029)

/-- Embeds `isValidEmail(email) = /.+@.+\..+/.test(email)`: some decomposition with a
non-empty dot-matched run before an `@`, between it and a later `.`, and
after that `.`. -/
def isValidEmail (s : String) : Bool :=
  let cs := s.toList
  let n := cs.length
  (List.range n).any (fun i =>
    (List.range n).any (fun j =>
      decide (1 ≤ i) && decide (i + 2 ≤ j) && decide (j + 2 ≤ n) &&
      (cs.getD i ' ' == '@') && (cs.getD j ' ' == '.') &&
      regexDotMatches (cs.getD (i - 1) ' ') &&
      regexDotMatches (cs.getD (j + 1) ' ') &&
      ((List.range (j - i - 1)).all (fun k => regexDotMatches (cs.getD (i + 1 + k) ' ')))))

/-- The parsed body of a contact request; `none` marks an absent field, whose
destructuring default then applies. -/
structure ContactBody where
  name : Option String
  email : Option String
  company : Option String
  phone : Option String
  subject : Option String
  message : Option String
  consent : Option Bool
  companyWebsite : Option String
  deriving DecidableEq, Repr

/-- The contact route's environment: SMTP credentials, recipient, and whether
`transporter.sendMail` succeeds when reached. -/
structure ContactEnv where
  zohoUser : Option String
  zohoPass : Option String
  contactTo : Option String
  sendSucceeds : Bool

/-- The JSON body the contact route answers with. -/
inductive ContactResp where
  | okTrue
  | tooMany
  | invalidData
  | notConfigured
  | sendFailed
  deriving DecidableEq, Repr

/-- What one contact handler run produces: HTTP status, response body, the
`attempts` entry of the caller's IP after the run, and whether
`transporter.sendMail` was invoked. -/
structure ContactResult where
  status : Nat
  resp : ContactResp
  rate : Option RateEntry
  mailAttempted : Bool
  deriving DecidableEq, Repr

/-- The contact route `POST` for one IP with current rate entry `re`.
Everything, including `req.json()`, runs inside the handler's `try`; a
malformed body (`body = none`) is caught and answered with the generic 500. -/
def contactPOST (cen : ContactEnv) (now : Nat) (re : Option RateEntry)
    (body : Option ContactBody) : ContactResult :=
  let rl := rateLimit now re
  if !rl.1 then
    { status := 429, resp := .tooMany, rate := rl.2, mailAttempted := false }
  else
    match body with
    | none => { status := 500, resp := .sendFailed, rate := rl.2, mailAttempted := false }
    | some b =>
        if !((b.companyWebsite.getD "") == "") then
          { status := 200, resp := .okTrue, rate := rl.2, mailAttempted := false }
        else
          let vName := (sanitize (b.name.getD "")).take 80
          let vEmail := (sanitize (b.email.getD "")).take 120
          let vMessage := (sanitize (b.message.getD "")).take 2000
          let vConsent := b.consent.getD false
          if vName == "" || !(isValidEmail vEmail) || vMessage == "" || !vConsent then
            { status := 400, resp := .invalidData, rate := rl.2, mailAttempted := false }
          else
            let toT := optTruthy cen.contactTo || optTruthy cen.zohoUser
            if !(optTruthy cen.zohoUser) || !(optTruthy cen.zohoPass) || !toT then
              { status := 500, resp := .notConfigured, rate := rl.2, mailAttempted := false }
            else if cen.sendSucceeds then
              { status := 200, resp := .okTrue, rate := rl.2, mailAttempted := true }
            else
              { status := 500, resp := .sendFailed, rate := rl.2, mailAttempted := true }

/-! ### Schema conformance

`payloadConf` states, of a JSON value, exactly what `carriersJsonSchema`
demands of an incoming payload: the right object/array structure, required
string fields, the transport-type enum, no additional properties — plus the
unique-keys property every `JSON.parse` result has.  It is the yardstick for
the validator claims: conformant payloads must be accepted unchanged, and a
conformant payload with one extra property injected must be accepted with
that property stripped. -/

/-- Keys of an object, for the unique-keys side condition. -/
def objKeys (fs : List (String × Json)) : List String := fs.map (fun kv => kv.1)

/-- A lane object as the schema describes it. -/
def laneConf : Json → Bool
  | .obj fs =>
      decide (objKeys fs).Nodup &&
      fs.all (fun kv => laneKeys.contains kv.1) &&
      (match lookupField fs "origin" with | some (.str _) => true | _ => false) &&
      (match lookupField fs "destination" with | some (.str _) => true | _ => false)
  | _ => false

/-- A `types` value as the schema describes it. -/
def typesConf : Json → Bool
  | .arr xs => xs.all (fun x => match x with | .str s => transportTypes.contains s | _ => false)
  | _ => false

/-- A carrier item as the schema describes it. -/
def itemConf : Json → Bool
  | .obj fs =>
      decide (objKeys fs).Nodup &&
      fs.all (fun kv => itemKeys.contains kv.1) &&
      (match lookupField fs "id" with | some (.str _) => true | _ => false) &&
      (match lookupField fs "name" with | some (.str _) => true | _ => false) &&
      (match lookupField fs "types" with | some t => typesConf t | none => false) &&
      (match lookupField fs "lanes" with | some (.arr ls) => ls.all laneConf | _ => false) &&
      (match lookupField fs "description" with
       | some (.str _) => true | some .null => true | some _ => false | none => true) &&
      (match lookupField fs "logoEmoji" with
       | some (.str _) => true | some .null => true | some _ => false | none => true)
  | _ => false

/-- A whole payload as the schema describes it. -/
def payloadConf : Json → Bool
  | .obj fs =>
      decide (objKeys fs).Nodup &&
      fs.all (fun kv => kv.1 == "items") &&
      (match lookupField fs "items" with | some (.arr xs) => xs.all itemConf | _ => false)
  | _ => false

/-- Inject a property `k: v` into an object (identity on non-objects). -/
def insertField (k : String) (v : Json) : Json → Json
  | .obj fs => .obj (fs ++ [(k, v)])
  | j => j

/-- Replace the value of every `lanes` property of an item object. -/
def setLanes (ls : Json) : Json → Json
  | .obj gs => .obj (gs.map (fun kv => if kv.1 == "lanes" then ("lanes", ls) else kv))
  | j => j

/-- The canonical top level of a payload whose `items` array is `xs`. -/
def payloadOf (xs : List Json) : Json := .obj [("items", .arr xs)]

def eraseId (c : CarrierOut) : CarrierOut := { c with id := "" }

def filterFull : Filter :=
  { type := some "truck", origin := some "FR", destination := some "ES", verifiedOnly := none }

def filterOne : Filter :=
  { type := some "truck", origin := none, destination := none, verifiedOnly := none }

def envC6a : Env :=
  { aiEnabled := some "false", apiKey := some "k", a := .throws, b := .throws, c := .throws }

def envC6b : Env :=
  { aiEnabled := none, apiKey := some "k", a := .throws, b := .throws, c := .throws }

def envC6c : Env :=
  { aiEnabled := none, apiKey := none, a := .throws, b := .throws, c := .throws }

def stubW7 : CarrierOut :=
  { id := "ai-stub-7"
    name := "Regional Carrier Suggestion"
    types := ["truck"]
    lanes := [{ origin := "FR", destination := "ES" }]
    description := some (.str "Unverified suggestion based on similar lanes in the region.")
    logoEmoji := some (.str "🧭")
    verified := false
    rating := none
    contact := none
    source := "ai"
    confidence := some (55 / 100) }

def cenW : ContactEnv :=
  { zohoUser := none, zohoPass := none, contactTo := none, sendSucceeds := true }

def bodyHp : ContactBody :=
  { name := none, email := none, company := none, phone := none, subject := none,
    message := none, consent := none, companyWebsite := some "http://x" }

def emptyItemsJson : Json := .obj [("items", .arr [])]

def emptyFilter : Filter :=
  { type := none, origin := none, destination := none, verifiedOnly := none }

def docW : CarrierDoc :=
  { id := "1", name := "Alpine Logistics", verified := true, rating := none,
    types := ["truck"], lanes := [{ origin := "FR", destination := "DE" }],
    description := none, contact := none, logoEmoji := none }

def goodItemJson : Json :=
  .obj [("id", .str "c1"), ("name", .str "Good Carrier"),
        ("types", .arr [.str "truck"]),
        ("lanes", .arr [.obj [("origin", .str "FR"), ("destination", .str "ES")]])]

def goodPayload : Json := .obj [("items", .arr [goodItemJson])]

def envC3 : Env :=
  { aiEnabled := none, apiKey := some "k", a := .payload emptyItemsJson,
    b := .payload goodPayload, c := .payload goodPayload }

def laneFRES : Json := .obj [("origin", .str "FR"), ("destination", .str "ES")]

def badItemJson : Json :=
  .obj [("id", .str "b1"), ("name", .str "No Lanes Carrier"), ("types", .arr [.str "truck"])]

def missingLanesPayload : Json := .obj [("items", .arr [badItemJson])]

/-! ### Theorems -/

theorem stubSuggestion_length (now : Nat) (p : Filter) :
    (stubSuggestion now p).length = 1 := rfl

theorem nonEmptyOrStub_pos (now : Nat) (p : Filter) (l : List CarrierOut) :
    0 < (nonEmptyOrStub now p l).length := by
  unfold nonEmptyOrStub
  split
  · next h => omega
  · simp [stubSuggestion]

theorem strategyA_pos {o : AOutcome} {now : Nat} {p : Filter} {r : List CarrierOut}
    (h : strategyA o now p = some r) : 0 < r.length := by
  cases o <;> simp only [strategyA] at h <;> try exact Option.noConfusion h
  next j =>
    split at h
    · exact Option.noConfusion h
    · injection h with h
      subst h
      exact nonEmptyOrStub_pos ..

theorem strategyB_pos {o : TextOutcome} {now : Nat} {p : Filter} {r : List CarrierOut}
    (h : strategyB o now p = some r) : 0 < r.length := by
  cases o <;> simp only [strategyB] at h <;> try exact Option.noConfusion h
  next j =>
    split at h
    · exact Option.noConfusion h
    · injection h with h
      subst h
      exact nonEmptyOrStub_pos ..

theorem strategyC_pos (o : TextOutcome) (now : Nat) (p : Filter) :
    0 < (strategyC o now p).length := by
  cases o with
  | throws => simp [strategyC, stubSuggestion]
  | unparseable => simp [strategyC, stubSuggestion]
  | payload j =>
      simp only [strategyC]
      split
      · simp [stubSuggestion]
      · exact nonEmptyOrStub_pos ..

theorem aiFallback_len_pos (en : Env) (now : Nat) (bkt : Option Bucket) (p : Filter) :
    0 < ((aiFallback en now bkt p).1).length := by
  unfold aiFallback
  split
  · simp [stubSuggestion]
  · split
    · simp [stubSuggestion]
    · split
      · simp [stubSuggestion]
      · split
        · simp [stubSuggestion]
        · split
          · next r hr => exact strategyA_pos hr
          · split
            · next r hr => exact strategyB_pos hr
            · exact strategyC_pos ..

theorem allowAiCall_reset (now k s : Nat) (h : aiWindowMs < now - s) :
    allowAiCall now (some { count := k, since := s }) =
      (true, { count := 1, since := now }) := by
  simp [allowAiCall, aiMaxCalls, h]

theorem allowAiCall_in_window (now k s : Nat) (h : now - s ≤ aiWindowMs) :
    allowAiCall now (some { count := k, since := s }) =
      (decide (k + 1 ≤ aiMaxCalls), { count := k + 1, since := s }) := by
  simp [allowAiCall, Nat.not_lt.mpr h]

theorem allowAiCall_fresh (now : Nat) :
    allowAiCall now none = (true, { count := 1, since := now }) := by
  simp [allowAiCall, aiMaxCalls]

theorem runCalls_in_window (ts : List Nat) (t0 k : Nat)
    (h : ∀ t ∈ ts, t - t0 ≤ aiWindowMs) :
    (runCalls ts (some { count := k, since := t0 })).1 =
      (List.range ts.length).map (fun i => decide (k + i + 1 ≤ aiMaxCalls)) := by
  induction ts generalizing k with
  | nil => rfl
  | cons t ts ih =>
      have ht : t - t0 ≤ aiWindowMs := h t (List.mem_cons_self ..)
      have hrest : ∀ x ∈ ts, x - t0 ≤ aiWindowMs := fun x hx => h x (List.mem_cons_of_mem _ hx)
      have hfun : (fun i => decide (k + 1 + i + 1 ≤ aiMaxCalls)) =
          ((fun i => decide (k + i + 1 ≤ aiMaxCalls)) ∘ Nat.succ) := by
        funext i
        simp only [Function.comp_apply]
        exact decide_eq_decide.mpr (by omega)
      simp only [runCalls, allowAiCall_in_window t k t0 ht, ih (k + 1) hrest,
        List.length_cons, List.range_succ_eq_map, List.map_cons, List.map_map, hfun, Nat.add_zero]

theorem runCalls_from_none (t0 : Nat) (ts : List Nat)
    (h : ∀ t ∈ ts, t - t0 ≤ aiWindowMs) :
    (runCalls (t0 :: ts) none).1 =
      (List.range (ts.length + 1)).map (fun i => decide (i + 1 ≤ aiMaxCalls)) := by
  have hfun : (fun i => decide (1 + i + 1 ≤ aiMaxCalls)) =
      ((fun i => decide (i + 1 ≤ aiMaxCalls)) ∘ Nat.succ) := by
    funext i
    simp only [Function.comp_apply]
    exact decide_eq_decide.mpr (by omega)
  simp only [runCalls, allowAiCall_fresh, runCalls_in_window ts t0 1 h,
    List.range_succ_eq_map, List.map_cons, List.map_map, hfun]
  simp [aiMaxCalls]

/-- C5: `allowAiCall` resets the bucket after more than 60 000 ms, then counts
the call and allows it iff the new count is at most 20; hence in one window
the first 20 calls for a key are allowed and the 21st is denied, and a call
after the window has elapsed is allowed again. -/
theorem claim_C5_rate_limiter :
    (∀ now k s, now - s ≤ aiWindowMs →
        allowAiCall now (some { count := k, since := s }) =
          (decide (k + 1 ≤ aiMaxCalls), { count := k + 1, since := s })) ∧
    (∀ now k s, aiWindowMs < now - s →
        allowAiCall now (some { count := k, since := s }) =
          (true, { count := 1, since := now })) ∧
    (∀ t0 ts, (∀ t ∈ ts, t - t0 ≤ aiWindowMs) →
        (runCalls (t0 :: ts) none).1 =
          (List.range (ts.length + 1)).map (fun i => decide (i + 1 ≤ aiMaxCalls))) :=
  ⟨allowAiCall_in_window, allowAiCall_reset, runCalls_from_none⟩

theorem claim_C5_rate_limiter_witness :
    allowAiCall 1000 (some { count := 20, since := 500 }) =
      (false, { count := 21, since := 500 }) ∧
    allowAiCall 70000 (some { count := 21, since := 0 }) =
      (true, { count := 1, since := 70000 }) ∧
    (runCalls (List.replicate 21 0) none).1 = List.replicate 20 true ++ [false] := by
  refine ⟨?_, ?_, ?_⟩
  · have h := claim_C5_rate_limiter.1 1000 20 500 (by decide)
    simpa [aiMaxCalls] using h
  · exact claim_C5_rate_limiter.2.1 70000 21 0 (by decide)
  · have h := claim_C5_rate_limiter.2.2 0 (List.replicate 20 0) (by decide)
    rw [show List.replicate 21 (0 : Nat) = 0 :: List.replicate 20 0 from rfl, h]
    decide

/-- C6: the guardrail gates run in the order toggle, filter count, rate
limit, credential; each failing gate returns the stub, a disabled toggle
does so unconditionally, and fewer than 2 populated filters means zero
provider calls. -/
theorem claim_C6_gates (en : Env) (now : Nat) (bkt : Option Bucket) (p : Filter) :
    (en.aiEnabled.getD "true" ≠ "true" →
        aiFallback en now bkt p = (stubSuggestion now p, bkt, 0)) ∧
    (filledCount p < MIN_FILTERS_FOR_AI → en.aiEnabled.getD "true" = "true" →
        aiFallback en now bkt p = (stubSuggestion now p, bkt, 0)) ∧
    (en.aiEnabled.getD "true" = "true" → MIN_FILTERS_FOR_AI ≤ filledCount p →
        (allowAiCall now bkt).1 = false →
        aiFallback en now bkt p = (stubSuggestion now p, some (allowAiCall now bkt).2, 0)) ∧
    (en.aiEnabled.getD "true" = "true" → MIN_FILTERS_FOR_AI ≤ filledCount p →
        (allowAiCall now bkt).1 = true → optTruthy en.apiKey = false →
        aiFallback en now bkt p = (stubSuggestion now p, some (allowAiCall now bkt).2, 0)) := by
  refine ⟨?_, ?_, ?_, ?_⟩
  · intro h
    have hb : (en.aiEnabled.getD "true" == "true") = false := beq_eq_false_iff_ne.mpr h
    simp [aiFallback, hb]
  · intro hlt h
    simp [aiFallback, h, hlt]
  · intro h hge hrl
    simp [aiFallback, h, Nat.not_lt.mpr hge, hrl]
  · intro h hge hrl hkey
    simp [aiFallback, h, Nat.not_lt.mpr hge, hrl, hkey]

theorem claim_C6_gates_witness :
    aiFallback envC6a 0 none filterFull = (stubSuggestion 0 filterFull, none, 0) ∧
    aiFallback envC6b 0 none filterOne = (stubSuggestion 0 filterOne, none, 0) ∧
    aiFallback envC6b 0 (some { count := 20, since := 0 }) filterFull =
      (stubSuggestion 0 filterFull, some { count := 21, since := 0 }, 0) ∧
    aiFallback envC6c 0 none filterFull =
      (stubSuggestion 0 filterFull, some { count := 1, since := 0 }, 0) := by
  refine ⟨?_, ?_, ?_, ?_⟩
  · exact (claim_C6_gates envC6a 0 none filterFull).1 (by decide)
  · exact (claim_C6_gates envC6b 0 none filterOne).2.1 (by decide) (by decide)
  · have h := (claim_C6_gates envC6b 0 (some { count := 20, since := 0 }) filterFull).2.2.1
      (by decide) (by decide) (by decide)
    simpa [allowAiCall, aiWindowMs] using h
  · have h := (claim_C6_gates envC6c 0 none filterFull).2.2.2
      (by decide) (by decide) (by decide) (by decide)
    simpa [allowAiCall, aiWindowMs] using h

/-- C1: for every filter, bucket state and combination of provider
behaviours, `aiFallback` returns normally with at least one suggestion. -/
theorem claim_C1_always_nonempty (en : Env) (now : Nat) (bkt : Option Bucket) (p : Filter) :
    1 ≤ ((aiFallback en now bkt p).1).length :=
  aiFallback_len_pos en now bkt p

/-- C9: the stub generator yields exactly one unverified item echoing the
filter's type and lane with the fixed 0.55 confidence, and is deterministic
in the filter except for the timestamp-derived id. -/
theorem claim_C9_stub (now : Nat) (p : Filter) :
    (stubSuggestion now p).length = 1 ∧
    (∀ c ∈ stubSuggestion now p,
        c.verified = false ∧
        c.types = (if optTruthy p.type then [jsOr p.type "truck"] else ["truck"]) ∧
        c.lanes = [{ origin := jsOr p.origin "FR", destination := jsOr p.destination "ES" }] ∧
        c.confidence = some (55 / 100) ∧ c.source = "ai" ∧
        c.id = "ai-stub-" ++ toString now) ∧
    (∀ now2 : Nat, (stubSuggestion now p).map eraseId = (stubSuggestion now2 p).map eraseId) := by
  refine ⟨rfl, ?_, fun now2 => rfl⟩
  intro c hc
  have hc' : c = (stubSuggestion now p).head (by simp [stubSuggestion]) := by
    simpa [stubSuggestion] using hc
  subst hc'
  exact ⟨rfl, rfl, rfl, rfl, rfl, rfl⟩

theorem claim_C9_stub_witness :
    stubW7.verified = false ∧
    stubW7.types = ["truck"] ∧
    stubW7.confidence = some (55 / 100) ∧
    (stubSuggestion 7 filterFull).map eraseId = (stubSuggestion 9 filterFull).map eraseId := by
  have hmem : stubW7 ∈ stubSuggestion 7 filterFull := by
    simp [stubSuggestion, stubW7, filterFull, optTruthy, jsOr]
    decide
  have h := (claim_C9_stub 7 filterFull).2.1 stubW7 hmem
  exact ⟨h.1, by rw [h.2.1]; rfl, h.2.2.2.1, (claim_C9_stub 7 filterFull).2.2 9⟩

/-- C10: a contact request whose honeypot field is non-empty and that passes
the per-IP rate limit is silently accepted with 200 `{ok:true}`, no mail
attempt and no field validation, consuming one unit of rate budget. -/
theorem claim_C10_honeypot (cen : ContactEnv) (now : Nat) (re : Option RateEntry)
    (b : ContactBody)
    (hhp : b.companyWebsite.getD "" ≠ "")
    (hrl : (rateLimit now re).1 = true) :
    contactPOST cen now re (some b) =
      { status := 200, resp := .okTrue, rate := (rateLimit now re).2,
        mailAttempted := false } ∧
    (∀ e, re = some e → now - e.ts ≤ 3600000 → e.count < 5 →
        (rateLimit now re).2 = some { count := e.count + 1, ts := e.ts }) := by
  constructor
  · have hb : (b.companyWebsite.getD "" == "") = false := beq_eq_false_iff_ne.mpr hhp
    simp [contactPOST, hrl, hb]
  · intro e he hw hc
    subst he
    simp [rateLimit, Nat.not_lt.mpr hw, Nat.not_le.mpr hc]

theorem claim_C10_honeypot_witness :
    contactPOST cenW 3 none (some bodyHp) =
      { status := 200, resp := .okTrue, rate := some { count := 1, ts := 3 },
        mailAttempted := false } := by
  have h := (claim_C10_honeypot cenW 3 none bodyHp (by decide) (by decide)).1
  simpa [rateLimit] using h

/-- C3 counterexample: with all gates passing, Strategy A returning a payload
that validates with an empty `items` array, and Strategy B set up to return a
valid non-empty payload, `aiFallback` still returns the stub after exactly one
provider call — Strategy B is never attempted. -/
theorem claim_C3_counterexample :
    (validateCarriers emptyItemsJson).1 = true ∧
    itemsOf (validateCarriers emptyItemsJson).2.1 = [] ∧
    (strategyB envC3.b 0 filterFull).isSome = true ∧
    (aiFallback envC3 0 none filterFull).2.2 = 1 ∧
    (aiFallback envC3 0 none filterFull).1 = stubSuggestion 0 filterFull :=
  ⟨rfl, rfl, rfl, rfl, rfl⟩

/-- C3 amended: when Strategy A's payload parses and validates but its items
array is empty, the engine treats it as a failure but returns the stub
immediately after that single provider call; Strategy B is not attempted. -/
theorem claim_C3_amended (en : Env) (now : Nat) (bkt : Option Bucket) (p : Filter)
    (j : Json)
    (htog : en.aiEnabled.getD "true" = "true")
    (hfil : MIN_FILTERS_FOR_AI ≤ filledCount p)
    (hrl : (allowAiCall now bkt).1 = true)
    (hkey : optTruthy en.apiKey = true)
    (ha : en.a = .payload j)
    (hval : (validateCarriers j).1 = true)
    (hempty : itemsOf (validateCarriers j).2.1 = []) :
    aiFallback en now bkt p = (stubSuggestion now p, some (allowAiCall now bkt).2, 1) := by
  have hA : strategyA en.a now p = some (stubSuggestion now p) := by
    rw [ha]
    simp [strategyA, hval, nonEmptyOrStub, mappedItems, hempty]
  simp [aiFallback, htog, Nat.not_lt.mpr hfil, hrl, hkey, hA]

theorem claim_C3_amended_witness :
    aiFallback envC3 0 none filterFull =
      (stubSuggestion 0 filterFull, some { count := 1, since := 0 }, 1) := by
  have h := claim_C3_amended envC3 0 none filterFull emptyItemsJson
    (by decide) (by decide) (by decide) (by decide) rfl rfl rfl
  simpa [allowAiCall] using h

/-- C4: the handler's query is conjunctive over exactly the supplied filter
fields (an empty filter matches everything), results are capped at 50; a
non-empty result set is returned as `usedAi=false` db-tagged carriers with no
engine invocation, an empty one invokes the engine with the
no-verified-carriers notice. -/
theorem claim_C4_db_query (rows : List CarrierDoc) (en : Env) (now : Nat)
    (bkt : Option Bucket) (f : Filter) :
    (∀ c, matchesQuery emptyFilter c = true) ∧
    (matchesQuery f = fun c =>
        (!optTruthy f.type || c.types.contains (f.type.getD "")) &&
        (!optTruthy f.origin || c.lanes.any (fun l => l.origin == f.origin.getD "")) &&
        (!optTruthy f.destination || c.lanes.any (fun l => l.destination == f.destination.getD "")) &&
        (!(f.verifiedOnly.getD false) || c.verified)) ∧
    (0 < ((rows.filter (matchesQuery f)).take 50).length →
        searchHandle (.docs rows) en now bkt f =
          { resp := { carriers := ((rows.filter (matchesQuery f)).take 50).map dbCarrierOut,
                      suggestions := none, usedAi := false, notice := none }
            bucket := bkt, providerCalls := 0, aiInvocations := 0 }) ∧
    (∀ c ∈ ((rows.filter (matchesQuery f)).take 50).map dbCarrierOut, c.source = "db") ∧
    (((rows.filter (matchesQuery f)).take 50).length = 0 →
        searchHandle (.docs rows) en now bkt f =
          { resp := { carriers := [], suggestions := some (aiFallback en now bkt f).1,
                      usedAi := true, notice := some noCarriersNotice }
            bucket := (aiFallback en now bkt f).2.1,
            providerCalls := (aiFallback en now bkt f).2.2, aiInvocations := 1 }) := by
  refine ⟨?_, ?_, ?_, ?_, ?_⟩
  · intro c
    rfl
  · funext c
    simp only [matchesQuery, buildQuery]
    cases h1 : optTruthy f.type <;> cases h2 : optTruthy f.origin <;>
      cases h3 : optTruthy f.destination <;> cases h4 : f.verifiedOnly.getD false <;>
      simp [evalCond, Bool.and_assoc]
  · intro h
    simp only [searchHandle]
    rw [if_pos h]
  · intro c hc
    rcases List.mem_map.mp hc with ⟨d, _, rfl⟩
    rfl
  · intro h
    simp only [searchHandle]
    rw [if_neg (by omega)]

theorem claim_C4_db_query_witness :
    0 < (([docW].filter (matchesQuery filterOne)).take 50).length ∧
    searchHandle (.docs [docW]) envC6a 0 none filterOne =
      { resp := { carriers := (([docW].filter (matchesQuery filterOne)).take 50).map dbCarrierOut,
                  suggestions := none, usedAi := false, notice := none }
        bucket := none, providerCalls := 0, aiInvocations := 0 } ∧
    (([docW].filter (matchesQuery filterOne)).take 50).map dbCarrierOut = [dbCarrierOut docW] ∧
    searchHandle (.docs []) envC6a 0 none filterOne =
      { resp := { carriers := [], suggestions := some (aiFallback envC6a 0 none filterOne).1,
                  usedAi := true, notice := some noCarriersNotice }
        bucket := (aiFallback envC6a 0 none filterOne).2.1,
        providerCalls := (aiFallback envC6a 0 none filterOne).2.2, aiInvocations := 1 } ∧
    (aiFallback envC6a 0 none filterOne).1 = stubSuggestion 0 filterOne :=
  ⟨by decide,
   (claim_C4_db_query [docW] envC6a 0 none filterOne).2.2.1 (by decide),
   rfl,
   (claim_C4_db_query [] envC6a 0 none filterOne).2.2.2.2 (by decide),
   rfl⟩

/-- C2 counterexample: a request whose body is not well-formed JSON (or not
destructurable) makes the search handler reject — `await req.json()` runs
outside every `try` block — so the handler does not resolve to a JSON
response for that request. -/
theorem claim_C2_counterexample :
    searchPOST (.docs []) envC6a 0 none none =
      .error "await req.json() rejected outside any try block" := rfl

/-- C2 amended: for every request whose body is a well-formed JSON object,
the handler resolves to one of the two response shapes — `usedAi=false` with
db carriers, or `usedAi=true` with at least one suggestion (worst case a
single stub) and one of the three fixed notices — and never surfaces an
exception or raw provider error. -/
theorem claim_C2_amended (db : DbState) (en : Env) (now : Nat) (bkt : Option Bucket)
    (f : Filter) :
    ∃ r, searchPOST db en now bkt (some f) = .ok r ∧
      ((r.resp.usedAi = false ∧ r.resp.suggestions = none ∧ r.resp.notice = none) ∨
       (r.resp.usedAi = true ∧ r.resp.carriers = [] ∧
        (∃ s, r.resp.suggestions = some s ∧ 1 ≤ s.length) ∧
        (r.resp.notice = some dbUnavailableNotice ∨ r.resp.notice = some noCarriersNotice ∨
         r.resp.notice = some dbErrorNotice))) := by
  refine ⟨searchHandle db en now bkt f, rfl, ?_⟩
  cases db with
  | connectFails =>
      exact Or.inr ⟨rfl, rfl, ⟨_, rfl, aiFallback_len_pos ..⟩, Or.inl rfl⟩
  | queryFails =>
      exact Or.inr ⟨rfl, rfl, ⟨_, rfl, aiFallback_len_pos ..⟩, Or.inr (Or.inr rfl)⟩
  | docs rows =>
      by_cases h : 0 < ((rows.filter (matchesQuery f)).take 50).length
      · left
        simp only [searchHandle]
        rw [if_pos h]
        exact ⟨rfl, rfl, rfl⟩
      · right
        simp only [searchHandle]
        rw [if_neg h]
        exact ⟨rfl, rfl, ⟨(aiFallback en now bkt f).1, rfl, aiFallback_len_pos ..⟩,
          Or.inr (Or.inl rfl)⟩

theorem stripItem_getField_of_not_itemKey (x : Json) (k : String)
    (hk : itemKeys.contains k = false) : (stripItem x).getField k = none := by
  cases x with
  | obj fs =>
      have hkl : k ≠ "lanes" := by
        intro hke
        subst hke
        simp [itemKeys] at hk
      simp only [stripItem, Json.getField, lookupField]
      have hfind : ((fs.filter (fun kv => itemKeys.contains kv.1)).map
          (fun kv => if kv.1 == "lanes" then ("lanes", stripLanes kv.2) else kv)).find?
            (fun kv => kv.1 == k) = none := by
        rw [List.find?_eq_none]
        intro y hy
        rcases List.mem_map.mp hy with ⟨kv, hkv, rfl⟩
        rcases List.mem_filter.mp hkv with ⟨_, hcont⟩
        by_cases hl : kv.1 == "lanes"
        · simp only [if_pos hl]
          simp [Ne.symm hkl]
        · simp only [if_neg hl]
          intro hkk
          have hke : kv.1 = k := by simpa using hkk
          rw [hke, hk] at hcont
          exact Bool.noConfusion hcont
      rw [hfind]
      rfl
  | null => rfl
  | bool b => rfl
  | num n => rfl
  | str s => rfl
  | arr xs => rfl

theorem lookupField_cons (kv : String × Json) (rest : List (String × Json)) (k : String) :
    lookupField (kv :: rest) k =
      if kv.1 == k then some kv.2 else lookupField rest k := by
  unfold lookupField
  by_cases h : (kv.1 == k) = true
  · simp [List.find?, h]
  · simp [List.find?, h]

theorem lookupField_stripPayload (fs : List (String × Json)) :
    lookupField ((fs.filter (fun kv => kv.1 == "items")).map
        (fun kv => ("items", stripItems kv.2))) "items" =
      (lookupField fs "items").map stripItems := by
  induction fs with
  | nil => rfl
  | cons kv rest ih =>
      by_cases hk : (kv.1 == "items") = true
      · have hkeq : kv.1 = "items" := by simpa using hk
        simp [List.filter_cons, hk, lookupField_cons, hkeq]
      · simp [List.filter_cons, hk, lookupField_cons, ih]

theorem getField_stripPayload_items (j : Json) :
    (stripPayload j).getField "items" = (j.getField "items").map stripItems := by
  cases j with
  | obj fs =>
      simp only [stripPayload, Json.getField]
      exact lookupField_stripPayload fs
  | null => rfl
  | bool b => rfl
  | num n => rfl
  | str s => rfl
  | arr xs => rfl

theorem itemsOf_stripPayload (j : Json) :
    itemsOf (stripPayload j) = (itemsOf j).map stripItem := by
  unfold itemsOf
  rw [getField_stripPayload_items]
  cases hj : j.getField "items" with
  | none => rfl
  | some v => cases v <;> rfl

theorem mappedItems_length (norm : Json) : (mappedItems norm).length ≤ 5 := by
  simp only [mappedItems, List.length_map, List.length_take]
  omega

theorem mappedItems_of_validated {j : Json} {c : CarrierOut}
    (hc : c ∈ mappedItems (validateCarriers j).2.1) :
    c.source = "ai" ∧ c.verified = false ∧ c.confidence = some (55 / 100) ∧
      c.contact = none := by
  rcases List.mem_map.mp hc with ⟨x, hx, rfl⟩
  have hx2 : x ∈ itemsOf (stripPayload j) := List.mem_of_mem_take hx
  rw [itemsOf_stripPayload] at hx2
  rcases List.mem_map.mp hx2 with ⟨y, _, rfl⟩
  exact ⟨rfl, rfl, rfl, stripItem_getField_of_not_itemKey y "contact" (by decide)⟩

theorem stubSuggestion_c8 (now : Nat) (p : Filter) :
    (stubSuggestion now p).length ≤ 5 ∧
    ∀ c ∈ stubSuggestion now p,
      c.source = "ai" ∧ c.verified = false ∧ c.confidence = some (55 / 100) ∧
        c.contact = none := by
  refine ⟨by simp [stubSuggestion], ?_⟩
  intro c hc
  have hc' : c = (stubSuggestion now p).head (by simp [stubSuggestion]) := by
    simpa [stubSuggestion] using hc
  subst hc'
  exact ⟨rfl, rfl, rfl, rfl⟩

theorem nonEmptyOrStub_c8 {j : Json} (now : Nat) (p : Filter) :
    (nonEmptyOrStub now p (mappedItems (validateCarriers j).2.1)).length ≤ 5 ∧
    ∀ c ∈ nonEmptyOrStub now p (mappedItems (validateCarriers j).2.1),
      c.source = "ai" ∧ c.verified = false ∧ c.confidence = some (55 / 100) ∧
        c.contact = none := by
  unfold nonEmptyOrStub
  split
  · exact ⟨mappedItems_length _, fun c hc => mappedItems_of_validated hc⟩
  · exact stubSuggestion_c8 now p

theorem strategyA_c8 {o : AOutcome} {now : Nat} {p : Filter} {r : List CarrierOut}
    (h : strategyA o now p = some r) :
    r.length ≤ 5 ∧
    ∀ c ∈ r, c.source = "ai" ∧ c.verified = false ∧ c.confidence = some (55 / 100) ∧
      c.contact = none := by
  cases o <;> simp only [strategyA] at h <;> try exact Option.noConfusion h
  next j =>
    split at h
    · exact Option.noConfusion h
    · injection h with h
      subst h
      exact nonEmptyOrStub_c8 now p

theorem strategyB_c8 {o : TextOutcome} {now : Nat} {p : Filter} {r : List CarrierOut}
    (h : strategyB o now p = some r) :
    r.length ≤ 5 ∧
    ∀ c ∈ r, c.source = "ai" ∧ c.verified = false ∧ c.confidence = some (55 / 100) ∧
      c.contact = none := by
  cases o <;> simp only [strategyB] at h <;> try exact Option.noConfusion h
  next j =>
    split at h
    · exact Option.noConfusion h
    · injection h with h
      subst h
      exact nonEmptyOrStub_c8 now p

theorem strategyC_c8 (o : TextOutcome) (now : Nat) (p : Filter) :
    (strategyC o now p).length ≤ 5 ∧
    ∀ c ∈ strategyC o now p,
      c.source = "ai" ∧ c.verified = false ∧ c.confidence = some (55 / 100) ∧
        c.contact = none := by
  cases o with
  | throws => exact stubSuggestion_c8 now p
  | unparseable => exact stubSuggestion_c8 now p
  | payload j =>
      simp only [strategyC]
      split
      · exact stubSuggestion_c8 now p
      · exact nonEmptyOrStub_c8 now p

/-- C8: every `aiFallback` result has at most 5 items, and every item is
tagged `source="ai"`, `verified=false`, `confidence=0.55` and carries no
contact block (validation strips any `contact` the provider emits, and the
stub has none). -/
theorem claim_C8_output_shape (en : Env) (now : Nat) (bkt : Option Bucket) (p : Filter) :
    ((aiFallback en now bkt p).1).length ≤ 5 ∧
    ∀ c ∈ (aiFallback en now bkt p).1,
      c.source = "ai" ∧ c.verified = false ∧ c.confidence = some (55 / 100) ∧
        c.contact = none := by
  unfold aiFallback
  split
  · exact stubSuggestion_c8 now p
  · split
    · exact stubSuggestion_c8 now p
    · split
      · exact stubSuggestion_c8 now p
      · split
        · exact stubSuggestion_c8 now p
        · split
          · next r hr => exact strategyA_c8 hr
          · split
            · next r hr => exact strategyB_c8 hr
            · exact strategyC_c8 en.c now p

theorem claim_C8_output_shape_witness :
    ((aiFallback envC3 0 none filterFull).1).length ≤ 5 ∧
    stubW7.source = "ai" ∧ stubW7.verified = false ∧
    stubW7.confidence = some (55 / 100) ∧ stubW7.contact = none := by
  have h := claim_C8_output_shape envC3 0 none filterFull
  have hmem : stubW7 ∈ (aiFallback envC3 7 none filterFull).1 := by
    rw [show (aiFallback envC3 7 none filterFull).1 = stubSuggestion 7 filterFull from rfl]
    simp [stubSuggestion, stubW7, filterFull, optTruthy, jsOr]
    decide
  have h2 := (claim_C8_output_shape envC3 7 none filterFull).2 stubW7 hmem
  exact ⟨h.1, h2⟩

theorem foldr_append_nil {α : Type} (f : α → List String) (xs : List α)
    (h : ∀ x ∈ xs, f x = []) :
    xs.foldr (fun x acc => f x ++ acc) [] = [] := by
  induction xs with
  | nil => rfl
  | cons x xs ih =>
      simp only [List.foldr_cons]
      rw [h x (List.mem_cons_self ..), ih (fun y hy => h y (List.mem_cons_of_mem _ hy))]
      rfl

theorem foldr_append_ne_nil {α : Type} (f : α → List String) (xs : List α) (x : α)
    (hx : x ∈ xs) (h : f x ≠ []) :
    xs.foldr (fun x acc => f x ++ acc) [] ≠ [] := by
  induction xs with
  | nil => exact absurd hx (List.not_mem_nil x)
  | cons y ys ih =>
      simp only [List.foldr_cons, ne_eq, List.append_eq_nil]
      rcases List.mem_cons.mp hx with h1 | h1
      · subst h1
        intro hc
        exact h hc.1
      · intro hc
        exact ih h1 hc.2

theorem match_str_exists {o : Option Json}
    (h : (match o with | some (.str _) => true | _ => false) = true) :
    ∃ s, o = some (.str s) := by
  cases o with
  | none => exact absurd h (by simp)
  | some v =>
      cases v with
      | str s => exact ⟨s, rfl⟩
      | null => exact absurd h (by simp)
      | bool b => exact absurd h (by simp)
      | num n => exact absurd h (by simp)
      | arr xs => exact absurd h (by simp)
      | obj fs => exact absurd h (by simp)

theorem reqStrErrs_nil {fs : List (String × Json)} {k s : String}
    (h : lookupField fs k = some (.str s)) : reqStrErrs fs k = [] := by
  unfold reqStrErrs
  rw [h]

theorem optStrErrs_of_match {fs : List (String × Json)} {k : String}
    (h : (match lookupField fs k with
          | some (.str _) => true | some .null => true
          | some _ => false | none => true) = true) :
    optStrErrs fs k = [] := by
  unfold optStrErrs
  cases hl : lookupField fs k with
  | none => rfl
  | some v =>
      rw [hl] at h
      cases v with
      | str s => rfl
      | null => rfl
      | bool b => exact absurd h (by simp)
      | num n => exact absurd h (by simp)
      | arr xs => exact absurd h (by simp)
      | obj gs => exact absurd h (by simp)

theorem lookupField_of_mem_nodup {fs : List (String × Json)} {kv : String × Json}
    (hnd : (objKeys fs).Nodup) (hmem : kv ∈ fs) :
    lookupField fs kv.1 = some kv.2 := by
  induction fs with
  | nil => exact absurd hmem (List.not_mem_nil kv)
  | cons hd tl ih =>
      rw [lookupField_cons]
      rcases List.mem_cons.mp hmem with h1 | h1
      · subst h1
        simp
      · have hne : (hd.1 == kv.1) = false := by
          rw [beq_eq_false_iff_ne]
          intro he
          have hk1 : kv.1 ∈ objKeys tl := List.mem_map.mpr ⟨kv, h1, rfl⟩
          rw [← he] at hk1
          exact (List.nodup_cons.mp hnd).1 hk1
        rw [hne]
        exact ih (List.nodup_cons.mp hnd).2 h1

theorem map_eq_self_of_forall {α : Type} (g : α → α) (xs : List α)
    (h : ∀ x ∈ xs, g x = x) : xs.map g = xs := by
  induction xs with
  | nil => rfl
  | cons x xs ih =>
      simp only [List.map_cons]
      rw [h x (List.mem_cons_self ..), ih (fun y hy => h y (List.mem_cons_of_mem _ hy))]

theorem laneConf_strip_id {x : Json} (h : laneConf x = true) : stripLane x = x := by
  cases x with
  | obj fs =>
      simp only [laneConf, Bool.and_eq_true] at h
      obtain ⟨⟨⟨-, hall⟩, -⟩, -⟩ := h
      simp only [stripLane]
      rw [List.filter_eq_self.mpr (List.all_eq_true.mp hall)]
  | null => exact absurd h (by simp [laneConf])
  | bool b => exact absurd h (by simp [laneConf])
  | num n => exact absurd h (by simp [laneConf])
  | str s => exact absurd h (by simp [laneConf])
  | arr xs => exact absurd h (by simp [laneConf])

theorem laneConf_errs_nil {x : Json} (h : laneConf x = true) : laneErrs x = [] := by
  cases x with
  | obj fs =>
      simp only [laneConf, Bool.and_eq_true] at h
      obtain ⟨⟨-, ho⟩, hd⟩ := h
      obtain ⟨s1, hs1⟩ := match_str_exists ho
      obtain ⟨s2, hs2⟩ := match_str_exists hd
      simp only [laneErrs]
      rw [reqStrErrs_nil hs1, reqStrErrs_nil hs2]
      rfl
  | null => exact absurd h (by simp [laneConf])
  | bool b => exact absurd h (by simp [laneConf])
  | num n => exact absurd h (by simp [laneConf])
  | str s => exact absurd h (by simp [laneConf])
  | arr xs => exact absurd h (by simp [laneConf])

theorem match_types_exists {o : Option Json}
    (h : (match o with | some t => typesConf t | none => false) = true) :
    ∃ t, o = some t ∧ typesConf t = true := by
  cases o with
  | none => exact absurd h (by simp)
  | some t => exact ⟨t, rfl, h⟩

theorem match_lanes_exists {o : Option Json}
    (h : (match o with | some (.arr ls) => ls.all laneConf | _ => false) = true) :
    ∃ ls, o = some (.arr ls) ∧ ls.all laneConf = true := by
  cases o with
  | none => exact absurd h (by simp)
  | some v =>
      cases v with
      | arr ls => exact ⟨ls, rfl, h⟩
      | null => exact absurd h (by simp)
      | bool b => exact absurd h (by simp)
      | num n => exact absurd h (by simp)
      | str s => exact absurd h (by simp)
      | obj gs => exact absurd h (by simp)

theorem typesConf_errs_nil {t : Json} (h : typesConf t = true) : typesErrs t = [] := by
  cases t with
  | arr xs =>
      simp only [typesConf] at h
      apply foldr_append_nil
      intro x hx
      have hx2 := List.all_eq_true.mp h x hx
      cases x <;> simp_all [typeTagErrs]
  | null => exact absurd h (by simp [typesConf])
  | bool b => exact absurd h (by simp [typesConf])
  | num n => exact absurd h (by simp [typesConf])
  | str s => exact absurd h (by simp [typesConf])
  | obj gs => exact absurd h (by simp [typesConf])

theorem lanesErrs_nil {ls : List Json} (h : ls.all laneConf = true) :
    lanesErrs (.arr ls) = [] :=
  foldr_append_nil _ _ (fun x hx => laneConf_errs_nil (List.all_eq_true.mp h x hx))

theorem stripLanes_id {ls : List Json} (h : ls.all laneConf = true) :
    stripLanes (.arr ls) = .arr ls := by
  simp only [stripLanes]
  rw [map_eq_self_of_forall _ _ (fun x hx => laneConf_strip_id (List.all_eq_true.mp h x hx))]

theorem itemConf_strip_id {x : Json} (h : itemConf x = true) : stripItem x = x := by
  cases x with
  | obj fs =>
      simp only [itemConf, Bool.and_eq_true] at h
      obtain ⟨⟨⟨⟨⟨⟨⟨hnd, hall⟩, hid⟩, hname⟩, htypes⟩, hlanes⟩, hdesc⟩, hlogo⟩ := h
      obtain ⟨ls, hls, hlsall⟩ := match_lanes_exists hlanes
      simp only [stripItem]
      rw [List.filter_eq_self.mpr (List.all_eq_true.mp hall)]
      congr 1
      apply map_eq_self_of_forall
      intro kv hkv
      by_cases hk : (kv.1 == "lanes") = true
      · have hk1 : kv.1 = "lanes" := by simpa using hk
        have hlook := lookupField_of_mem_nodup (of_decide_eq_true hnd) hkv
        rw [hk1] at hlook
        have h2 : kv.2 = .arr ls := by
          rw [hlook] at hls
          exact Option.some.inj hls
        rw [if_pos hk, h2, stripLanes_id hlsall, ← hk1, ← h2]
      · rw [if_neg hk]
  | null => exact absurd h (by simp [itemConf])
  | bool b => exact absurd h (by simp [itemConf])
  | num n => exact absurd h (by simp [itemConf])
  | str s => exact absurd h (by simp [itemConf])
  | arr xs => exact absurd h (by simp [itemConf])

theorem itemConf_errs_nil {x : Json} (h : itemConf x = true) : itemErrs x = [] := by
  cases x with
  | obj fs =>
      simp only [itemConf, Bool.and_eq_true] at h
      obtain ⟨⟨⟨⟨⟨⟨⟨hnd, hall⟩, hid⟩, hname⟩, htypes⟩, hlanes⟩, hdesc⟩, hlogo⟩ := h
      obtain ⟨s1, h1⟩ := match_str_exists hid
      obtain ⟨s2, h2⟩ := match_str_exists hname
      obtain ⟨t, ht, htc⟩ := match_types_exists htypes
      obtain ⟨ls, hls, hlsall⟩ := match_lanes_exists hlanes
      simp only [itemErrs]
      rw [reqStrErrs_nil h1, reqStrErrs_nil h2, ht, hls]
      simp [typesConf_errs_nil htc, lanesErrs_nil hlsall,
        optStrErrs_of_match hdesc, optStrErrs_of_match hlogo]
  | null => exact absurd h (by simp [itemConf])
  | bool b => exact absurd h (by simp [itemConf])
  | num n => exact absurd h (by simp [itemConf])
  | str s => exact absurd h (by simp [itemConf])
  | arr xs => exact absurd h (by simp [itemConf])

theorem payloadConf_shape {j : Json} (h : payloadConf j = true) :
    ∃ xs, j = payloadOf xs ∧ xs.all itemConf = true := by
  cases j with
  | obj fs =>
      simp only [payloadConf, Bool.and_eq_true] at h
      obtain ⟨⟨hnd, hall⟩, hitems⟩ := h
      cases fs with
      | nil => exact absurd hitems (by simp [lookupField])
      | cons kv rest =>
          have hk : kv.1 = "items" := by
            simpa using List.all_eq_true.mp hall kv (List.mem_cons_self ..)
          cases rest with
          | nil =>
              have hlook : lookupField [kv] "items" = some kv.2 := by
                rw [lookupField_cons]
                simp [hk]
              rw [hlook] at hitems
              cases hv : kv.2 with
              | arr xs =>
                  rw [hv] at hitems
                  refine ⟨xs, ?_, hitems⟩
                  simp only [payloadOf]
                  rw [← hk, ← hv]
              | null => rw [hv] at hitems; exact absurd hitems (by simp)
              | bool b => rw [hv] at hitems; exact absurd hitems (by simp)
              | num n => rw [hv] at hitems; exact absurd hitems (by simp)
              | str s => rw [hv] at hitems; exact absurd hitems (by simp)
              | obj gs => rw [hv] at hitems; exact absurd hitems (by simp)
          | cons kv2 rest2 =>
              exfalso
              have hk2 : kv2.1 = "items" := by
                simpa using List.all_eq_true.mp hall kv2
                  (List.mem_cons_of_mem _ (List.mem_cons_self ..))
              have hnd2 := of_decide_eq_true hnd
              have hmem : kv.1 ∈ objKeys (kv2 :: rest2) := by
                rw [hk]
                exact List.mem_map.mpr ⟨kv2, List.mem_cons_self .., hk2⟩
              exact (List.nodup_cons.mp hnd2).1 hmem
  | null => exact absurd h (by simp [payloadConf])
  | bool b => exact absurd h (by simp [payloadConf])
  | num n => exact absurd h (by simp [payloadConf])
  | str s => exact absurd h (by simp [payloadConf])
  | arr xs => exact absurd h (by simp [payloadConf])

theorem stripPayload_payloadOf (ys : List Json) :
    stripPayload (payloadOf ys) = payloadOf (ys.map stripItem) := by
  simp [payloadOf, stripPayload, stripItems, List.filter_cons]

theorem payloadErrs_payloadOf (ys : List Json) :
    payloadErrs (payloadOf ys) = ys.foldr (fun x acc => itemErrs x ++ acc) [] := by
  simp only [payloadOf, payloadErrs, lookupField_cons]
  rfl

theorem validateCarriers_eq (j : Json) :
    validateCarriers j =
      ((payloadErrs (stripPayload j)).isEmpty, stripPayload j,
        payloadErrs (stripPayload j)) := rfl

theorem payloadConf_valid {j : Json} (h : payloadConf j = true) :
    validateCarriers j = (true, j, []) := by
  obtain ⟨xs, rfl, hall⟩ := payloadConf_shape h
  have hstrip : stripPayload (payloadOf xs) = payloadOf xs := by
    rw [stripPayload_payloadOf,
      map_eq_self_of_forall _ _ (fun x hx => itemConf_strip_id (List.all_eq_true.mp hall x hx))]
  have herrs : payloadErrs (payloadOf xs) = [] := by
    rw [payloadErrs_payloadOf]
    exact foldr_append_nil _ _ (fun x hx => itemConf_errs_nil (List.all_eq_true.mp hall x hx))
  rw [validateCarriers_eq, hstrip, herrs]
  rfl

theorem itemConf_is_obj {x : Json} (h : itemConf x = true) :
    ∃ gs, x = .obj gs := by
  cases x with
  | obj gs => exact ⟨gs, rfl⟩
  | null => exact absurd h (by simp [itemConf])
  | bool b => exact absurd h (by simp [itemConf])
  | num n => exact absurd h (by simp [itemConf])
  | str s => exact absurd h (by simp [itemConf])
  | arr xs => exact absurd h (by simp [itemConf])

theorem laneConf_is_obj {y : Json} (h : laneConf y = true) :
    ∃ gs, y = .obj gs := by
  cases y with
  | obj gs => exact ⟨gs, rfl⟩
  | null => exact absurd h (by simp [laneConf])
  | bool b => exact absurd h (by simp [laneConf])
  | num n => exact absurd h (by simp [laneConf])
  | str s => exact absurd h (by simp [laneConf])
  | arr xs => exact absurd h (by simp [laneConf])

theorem stripLane_insertField {gs : List (String × Json)} {k : String} (v : Json)
    (hk : laneKeys.contains k = false) :
    stripLane (insertField k v (.obj gs)) = stripLane (.obj gs) := by
  have hk2 : k ∉ laneKeys := by simpa using hk
  simp only [insertField, stripLane, List.filter_append]
  simp [List.filter_cons, hk2]

theorem stripItem_insertField {gs : List (String × Json)} {k : String} (v : Json)
    (hk : itemKeys.contains k = false) :
    stripItem (insertField k v (.obj gs)) = stripItem (.obj gs) := by
  have hk2 : k ∉ itemKeys := by simpa using hk
  simp only [insertField, stripItem, List.filter_append]
  simp [List.filter_cons, hk2]

theorem stripPayload_insertField {fs : List (String × Json)} {k : String} (v : Json)
    (hk : (k == "items") = false) :
    stripPayload (insertField k v (.obj fs)) = stripPayload (.obj fs) := by
  simp only [insertField, stripPayload, List.filter_append]
  simp [List.filter_cons, hk]

theorem payloadOf_strip_id {xs : List Json} (hall : xs.all itemConf = true) :
    stripPayload (payloadOf xs) = payloadOf xs := by
  rw [stripPayload_payloadOf,
    map_eq_self_of_forall _ _ (fun x hx => itemConf_strip_id (List.all_eq_true.mp hall x hx))]

theorem payloadOf_errs_nil {xs : List Json} (hall : xs.all itemConf = true) :
    payloadErrs (payloadOf xs) = [] := by
  rw [payloadErrs_payloadOf]
  exact foldr_append_nil _ _ (fun x hx => itemConf_errs_nil (List.all_eq_true.mp hall x hx))

theorem payload_insert_valid {j : Json} {k : String} (v : Json)
    (hconf : payloadConf j = true) (hk : (k == "items") = false) :
    validateCarriers (insertField k v j) = (true, j, []) := by
  obtain ⟨xs, rfl, hall⟩ := payloadConf_shape hconf
  have hsp : stripPayload (insertField k v (payloadOf xs)) = stripPayload (payloadOf xs) :=
    stripPayload_insertField v hk
  rw [validateCarriers_eq, hsp, payloadOf_strip_id hall, payloadOf_errs_nil hall]
  rfl

theorem payload_item_insert_valid {l₁ l₂ : List Json} {x : Json} {k : String} (v : Json)
    (hall : (l₁ ++ x :: l₂).all itemConf = true)
    (hk : itemKeys.contains k = false) :
    validateCarriers (payloadOf (l₁ ++ insertField k v x :: l₂)) =
      (true, payloadOf (l₁ ++ x :: l₂), []) := by
  have hx : itemConf x = true :=
    List.all_eq_true.mp hall x (by simp)
  obtain ⟨gs, rfl⟩ := itemConf_is_obj hx
  have hmap : (l₁ ++ insertField k v (.obj gs) :: l₂).map stripItem =
      l₁ ++ Json.obj gs :: l₂ := by
    rw [List.map_append, List.map_cons]
    have h1 : l₁.map stripItem = l₁ :=
      map_eq_self_of_forall _ _ (fun y hy =>
        itemConf_strip_id (List.all_eq_true.mp hall y (by simp [hy])))
    have h2 : l₂.map stripItem = l₂ :=
      map_eq_self_of_forall _ _ (fun y hy =>
        itemConf_strip_id (List.all_eq_true.mp hall y (by simp [hy])))
    rw [h1, h2, stripItem_insertField v hk, itemConf_strip_id hx]
  have hall2 : (l₁ ++ Json.obj gs :: l₂).all itemConf = true := hall
  rw [validateCarriers_eq, stripPayload_payloadOf, hmap, payloadOf_errs_nil hall2]
  have : payloadOf ((l₁ ++ Json.obj gs :: l₂).map stripItem) = payloadOf (l₁ ++ Json.obj gs :: l₂) := by
    rw [map_eq_self_of_forall _ _ (fun y hy => itemConf_strip_id (List.all_eq_true.mp hall2 y hy))]
  rfl

theorem stripLane_insert_conf {y : Json} {k : String} (v : Json)
    (hy : laneConf y = true) (hk : laneKeys.contains k = false) :
    stripLane (insertField k v y) = y := by
  obtain ⟨gs, rfl⟩ := laneConf_is_obj hy
  rw [stripLane_insertField v hk, laneConf_strip_id hy]

theorem stripItem_setLanes_insert {x : Json} {m₁ m₂ : List Json} {y : Json} {k : String}
    (v : Json) (hconf : itemConf x = true)
    (hlk : x.getField "lanes" = some (.arr (m₁ ++ y :: m₂)))
    (hk : laneKeys.contains k = false) :
    stripItem (setLanes (.arr (m₁ ++ insertField k v y :: m₂)) x) = x := by
  obtain ⟨gs, rfl⟩ := itemConf_is_obj hconf
  simp only [itemConf, Bool.and_eq_true] at hconf
  obtain ⟨⟨⟨⟨⟨⟨⟨hnd, hall⟩, -⟩, -⟩, -⟩, hlanes⟩, -⟩, -⟩ := hconf
  obtain ⟨ls, hls, hlsall⟩ := match_lanes_exists hlanes
  have hlk2 : lookupField gs "lanes" = some (.arr (m₁ ++ y :: m₂)) := hlk
  have hlseq : ls = m₁ ++ y :: m₂ := by
    rw [hlk2] at hls
    exact (Json.arr.inj (Option.some.inj hls)).symm
  subst hlseq
  have hstripNew : stripLanes (.arr (m₁ ++ insertField k v y :: m₂)) =
      .arr (m₁ ++ y :: m₂) := by
    simp only [stripLanes, List.map_append, List.map_cons]
    have hm1 : m₁.map stripLane = m₁ :=
      map_eq_self_of_forall _ _ (fun z hz =>
        laneConf_strip_id (List.all_eq_true.mp hlsall z (by simp [hz])))
    have hm2 : m₂.map stripLane = m₂ :=
      map_eq_self_of_forall _ _ (fun z hz =>
        laneConf_strip_id (List.all_eq_true.mp hlsall z (by simp [hz])))
    have hy : laneConf y = true := List.all_eq_true.mp hlsall y (by simp)
    rw [hm1, hm2, stripLane_insert_conf v hy hk]
  simp only [setLanes, stripItem]
  have hkeys : ∀ kv' ∈ gs.map (fun kv =>
      if kv.1 == "lanes" then ("lanes", Json.arr (m₁ ++ insertField k v y :: m₂)) else kv),
      (fun kv => itemKeys.contains kv.1) kv' = true := by
    intro kv' hkv'
    rcases List.mem_map.mp hkv' with ⟨kv, hkv, rfl⟩
    by_cases hkl : (kv.1 == "lanes") = true
    · rw [if_pos hkl]
      show itemKeys.contains "lanes" = true
      decide
    · rw [if_neg hkl]
      exact List.all_eq_true.mp hall kv hkv
  rw [List.filter_eq_self.mpr hkeys, List.map_map]
  congr 1
  apply map_eq_self_of_forall
  intro kv hkv
  simp only [Function.comp_apply]
  by_cases hkl : (kv.1 == "lanes") = true
  · have hk1 : kv.1 = "lanes" := by simpa using hkl
    have hlook := lookupField_of_mem_nodup (of_decide_eq_true hnd) hkv
    rw [hk1] at hlook
    have h2 : kv.2 = .arr (m₁ ++ y :: m₂) := by
      rw [hlook] at hlk2
      exact Option.some.inj hlk2
    rw [if_pos hkl]
    have houter : (("lanes" : String) == "lanes") = true := by decide
    rw [if_pos houter]
    rw [hstripNew, ← hk1, ← h2]
  · rw [if_neg hkl, if_neg hkl]

theorem payload_lane_insert_valid {l₁ l₂ : List Json} {x : Json} {m₁ m₂ : List Json}
    {y : Json} {k : String} (v : Json)
    (hall : (l₁ ++ x :: l₂).all itemConf = true)
    (hlk : x.getField "lanes" = some (.arr (m₁ ++ y :: m₂)))
    (hk : laneKeys.contains k = false) :
    validateCarriers
        (payloadOf (l₁ ++ setLanes (.arr (m₁ ++ insertField k v y :: m₂)) x :: l₂)) =
      (true, payloadOf (l₁ ++ x :: l₂), []) := by
  have hx : itemConf x = true := List.all_eq_true.mp hall x (by simp)
  have hmap : (l₁ ++ setLanes (.arr (m₁ ++ insertField k v y :: m₂)) x :: l₂).map stripItem =
      l₁ ++ x :: l₂ := by
    rw [List.map_append, List.map_cons]
    have h1 : l₁.map stripItem = l₁ :=
      map_eq_self_of_forall _ _ (fun z hz =>
        itemConf_strip_id (List.all_eq_true.mp hall z (by simp [hz])))
    have h2 : l₂.map stripItem = l₂ :=
      map_eq_self_of_forall _ _ (fun z hz =>
        itemConf_strip_id (List.all_eq_true.mp hall z (by simp [hz])))
    rw [h1, h2, stripItem_setLanes_insert v hx hlk hk]
  rw [validateCarriers_eq, stripPayload_payloadOf, hmap, payloadOf_errs_nil hall]
  rfl

theorem lookupField_eq_none_iff {fs : List (String × Json)} {k : String} :
    lookupField fs k = none ↔ ∀ kv ∈ fs, (kv.1 == k) = false := by
  unfold lookupField
  rw [Option.map_eq_none', List.find?_eq_none]
  simp

theorem stripItem_lookup_lanes_none {gs : List (String × Json)}
    (h : lookupField gs "lanes" = none) :
    lookupField ((gs.filter (fun kv => itemKeys.contains kv.1)).map
      (fun kv => if kv.1 == "lanes" then ("lanes", stripLanes kv.2) else kv)) "lanes" = none := by
  rw [lookupField_eq_none_iff] at h ⊢
  intro kv' hkv'
  rcases List.mem_map.mp hkv' with ⟨kv, hkv, rfl⟩
  rcases List.mem_filter.mp hkv with ⟨hm, -⟩
  have hfalse := h kv hm
  rw [if_neg (by rw [hfalse]; exact Bool.false_ne_true)]
  exact hfalse

theorem itemErrs_lanes_none {gs : List (String × Json)}
    (h : lookupField gs "lanes" = none) :
    itemErrs (.obj gs) ≠ [] := by
  simp only [itemErrs, h]
  simp [List.append_eq_nil]

theorem missing_lanes_rejected {fs : List (String × Json)} {xs : List Json}
    {gs : List (String × Json)}
    (hitems : lookupField fs "items" = some (.arr xs))
    (hx : Json.obj gs ∈ xs)
    (hlk : lookupField gs "lanes" = none) :
    (validateCarriers (.obj fs)).1 = false ∧ (validateCarriers (.obj fs)).2.2 ≠ [] := by
  have herr : payloadErrs (stripPayload (.obj fs)) ≠ [] := by
    have hlook : lookupField ((fs.filter (fun kv => kv.1 == "items")).map
        (fun kv => ("items", stripItems kv.2))) "items" = some (.arr (xs.map stripItem)) := by
      rw [lookupField_stripPayload, hitems]
      rfl
    simp only [stripPayload, payloadErrs, hlook]
    apply foldr_append_ne_nil _ _ (stripItem (.obj gs)) (List.mem_map.mpr ⟨_, hx, rfl⟩)
    simp only [stripItem]
    exact itemErrs_lanes_none (stripItem_lookup_lanes_none hlk)
  constructor
  · rw [validateCarriers_eq]
    cases hes : payloadErrs (stripPayload (.obj fs)) with
    | nil => exact absurd hes herr
    | cons a as => rfl
  · rw [validateCarriers_eq]
    exact herr

/-- C7: schema-conformant payloads are accepted unchanged; injecting an
unknown property at any object level (payload, item, lane) still gives an
accepted result equal to the original normalized payload, with the property
stripped; and a payload one of whose items lacks the required `lanes` field
is rejected with a non-empty error list. -/
theorem claim_C7_validator :
    (∀ j : Json, payloadConf j = true → validateCarriers j = (true, j, [])) ∧
    (∀ (j : Json) (k : String) (v : Json), payloadConf j = true → (k == "items") = false →
        validateCarriers (insertField k v j) = (true, j, [])) ∧
    (∀ (l₁ l₂ : List Json) (x : Json) (k : String) (v : Json),
        (l₁ ++ x :: l₂).all itemConf = true → itemKeys.contains k = false →
        validateCarriers (payloadOf (l₁ ++ insertField k v x :: l₂)) =
          (true, payloadOf (l₁ ++ x :: l₂), [])) ∧
    (∀ (l₁ l₂ : List Json) (x : Json) (m₁ m₂ : List Json) (y : Json) (k : String) (v : Json),
        (l₁ ++ x :: l₂).all itemConf = true →
        x.getField "lanes" = some (.arr (m₁ ++ y :: m₂)) →
        laneKeys.contains k = false →
        validateCarriers
            (payloadOf (l₁ ++ setLanes (.arr (m₁ ++ insertField k v y :: m₂)) x :: l₂)) =
          (true, payloadOf (l₁ ++ x :: l₂), [])) ∧
    (∀ (fs : List (String × Json)) (xs : List Json) (gs : List (String × Json)),
        lookupField fs "items" = some (.arr xs) → Json.obj gs ∈ xs →
        lookupField gs "lanes" = none →
        (validateCarriers (.obj fs)).1 = false ∧ (validateCarriers (.obj fs)).2.2 ≠ []) :=
  ⟨fun _ h => payloadConf_valid h,
   fun _ _ v h hk => payload_insert_valid v h hk,
   fun _ _ _ _ v h hk => payload_item_insert_valid v h hk,
   fun _ _ _ _ _ _ _ v h hl hk => payload_lane_insert_valid v h hl hk,
   fun _ _ _ hi hx hl => missing_lanes_rejected hi hx hl⟩

theorem claim_C7_validator_witness :
    validateCarriers goodPayload = (true, goodPayload, []) ∧
    validateCarriers (insertField "note" (.str "extra") goodPayload) =
      (true, goodPayload, []) ∧
    validateCarriers (payloadOf ([] ++ insertField "contact" (.str "call") goodItemJson :: [])) =
      (true, payloadOf ([] ++ goodItemJson :: []), []) ∧
    validateCarriers (payloadOf ([] ++
        setLanes (.arr ([] ++ insertField "via" (.str "DE") laneFRES :: [])) goodItemJson :: [])) =
      (true, payloadOf ([] ++ goodItemJson :: []), []) ∧
    (validateCarriers missingLanesPayload).1 = false ∧
    (validateCarriers missingLanesPayload).2.2 ≠ [] := by
  refine ⟨?_, ?_, ?_, ?_, ?_, ?_⟩
  · exact claim_C7_validator.1 goodPayload (by decide)
  · exact claim_C7_validator.2.1 goodPayload "note" (.str "extra") (by decide) (by decide)
  · exact claim_C7_validator.2.2.1 [] [] goodItemJson "contact" (.str "call")
      (by decide) (by decide)
  · exact claim_C7_validator.2.2.2.1 [] [] goodItemJson [] [] laneFRES "via" (.str "DE")
      (by decide) rfl (by decide)
  · exact (claim_C7_validator.2.2.2.2 [("items", .arr [badItemJson])] [badItemJson]
      [("id", .str "b1"), ("name", .str "No Lanes Carrier"), ("types", .arr [.str "truck"])]
      rfl (List.mem_singleton.mpr rfl) rfl).1
  · exact (claim_C7_validator.2.2.2.2 [("items", .arr [badItemJson])] [badItemJson]
      [("id", .str "b1"), ("name", .str "No Lanes Carrier"), ("types", .arr [.str "truck"])]
      rfl (List.mem_singleton.mpr rfl) rfl).2

end LaneList
